import Mathlib

/-!
Shallow embedding of the Lead Time Analytics Engine of the repo-stats
repository (src/lib/LeadTimeCalculator.js and the lead-time queries of
src/lib/DatabaseManager.js), together with theorems settling the frozen
claims about it.

Modelling conventions:
* timestamps are integers (milliseconds since epoch, the value of
  JavaScript Date.getTime(); ISO-8601 strings compare the same way);
* hour durations are exact rationals (JavaScript numbers are modelled
  by the reals they denote; the claims with tolerances are settled by
  exact arithmetic);
* an SQL query over a table is a function over the list of its rows;
  ORDER BY ... ASC LIMIT 1 is "an element minimising the key, the first
  such in row order";
* optional/nullable columns are Option.
-/

/-- A row of the pull_requests table, as consumed by LeadTimeCalculator.
Timestamps are milliseconds; first_commit_at and merged_at are nullable
(the code checks their truthiness before computing). -/
structure PullRequest where
  id : Nat
  created_at_pr : Int
  first_commit_at : Option Int
  merged_at : Option Int
  head_sha : String
  merge_sha : String
deriving Repr, DecidableEq

/-- A row of the deployments table. deployment_date is non-null. -/
structure Deployment where
  id : Nat
  repository_id : String
  deployment_date : Int
  commit_sha : String
deriving Repr, DecidableEq

/-- The metric object built by calculatePRLeadTime (and persisted by
insertLeadTimeMetric). -/
structure LeadTimeMetric where
  repository_id : String
  pr_id : Nat
  deployment_id : Option Nat
  coding_time_hours : ℚ
  review_time_hours : ℚ
  deployment_time_hours : ℚ
  total_lead_time_hours : ℚ
  commit_to_merge_hours : ℚ
  merge_to_deploy_hours : ℚ
  first_commit_at : Int
  merged_at : Int
  deployed_at : Int
deriving Repr, DecidableEq

/-- calculateHoursDifference: (end - start) milliseconds divided by
1000*60*60, as a signed rational number of hours. -/
def calculateHoursDifference (startMs endMs : Int) : ℚ :=
  ((endMs : ℚ) - (startMs : ℚ)) / (1000 * 60 * 60)

/-- JavaScript Math.max on two (non-NaN) numbers. -/
def mathMax (a b : ℚ) : ℚ := if a ≤ b then b else a

theorem le_mathMax_left (a b : ℚ) : a ≤ mathMax a b := by
  unfold mathMax
  by_cases h : a ≤ b
  · rw [if_pos h]; exact h
  · rw [if_neg h]

theorem mathMax_eq_right {a b : ℚ} (h : a ≤ b) : mathMax a b = b := if_pos h

/-- Keep the row with the smallest deployment_date, preferring the
earlier row of the table on ties (ORDER BY deployment_date ASC LIMIT 1). -/
def minDep (a : Deployment) : List Deployment → Deployment
  | [] => a
  | b :: bs => minDep (if b.deployment_date < a.deployment_date then b else a) bs

/-- First row of the table ordered by deployment_date ascending, if any. -/
def firstByDate : List Deployment → Option Deployment
  | [] => none
  | d :: ds => some (minDep d ds)

/-- WHERE clause of the primary matcher query: same repository,
deployed at or after the merge, commit_sha equal to the head or the
merge commit of the PR. -/
def exactMatchRow (repositoryId : String) (mergedAt : Int) (headSha mergeSha : String)
    (d : Deployment) : Bool :=
  d.repository_id == repositoryId && decide (mergedAt ≤ d.deployment_date) &&
    (d.commit_sha == headSha || d.commit_sha == mergeSha)

/-- WHERE clause of the fallback matcher query: same repository,
deployed at or after the merge, any commit. -/
def afterMergeRow (repositoryId : String) (mergedAt : Int) (d : Deployment) : Bool :=
  d.repository_id == repositoryId && decide (mergedAt ≤ d.deployment_date)

/-- Body of findDeploymentForPR once merged_at is known: first try the
exact-commit query; if it returns no row, fall back to the earliest
deployment after the merge. -/
def findDeploymentAt (db : List Deployment) (repositoryId : String) (m : Int)
    (headSha mergeSha : String) : Option Deployment :=
  match firstByDate (db.filter (exactMatchRow repositoryId m headSha mergeSha)) with
  | some row => some row
  | none => firstByDate (db.filter (afterMergeRow repositoryId m))

/-- findDeploymentForPR: the two-stage matcher query of the PR.  When
merged_at is NULL both SQL comparisons are NULL, so no row matches. -/
def findDeploymentForPR (db : List Deployment) (repositoryId : String)
    (pr : PullRequest) : Option Deployment :=
  match pr.merged_at with
  | none => none
  | some m => findDeploymentAt db repositoryId m pr.head_sha pr.merge_sha

/-- Body of calculatePRLeadTime once both timestamps are known: resolve
a deployment, fall back to the merge time as the deployment time, and
assemble the metric.  coding and review times are clamped with
Math.max(0, _); the remaining durations are not. -/
def calculatePRLeadTimeAt (db : List Deployment) (repositoryId : String)
    (pr : PullRequest) (firstCommitTime mergedTime : Int) : LeadTimeMetric :=
  let deployment := findDeploymentForPR db repositoryId pr
    let deployedTime : Int :=
      match deployment with
      | some d => d.deployment_date
      | none => mergedTime
    let mergeToDeployHours : ℚ :=
      match deployment with
      | some d => calculateHoursDifference mergedTime d.deployment_date
      | none => 0
    let totalLeadTimeHours : ℚ :=
      match deployment with
      | some d => calculateHoursDifference firstCommitTime d.deployment_date
      | none => calculateHoursDifference firstCommitTime mergedTime
    let commitToMergeHours := calculateHoursDifference firstCommitTime mergedTime
    let prCreatedTime := pr.created_at_pr
    let codingTimeHours := calculateHoursDifference firstCommitTime prCreatedTime
    let reviewTimeHours := calculateHoursDifference prCreatedTime mergedTime
    { repository_id := repositoryId
      pr_id := pr.id
      deployment_id := deployment.map (fun d => d.id)
      coding_time_hours := mathMax 0 codingTimeHours
      review_time_hours := mathMax 0 reviewTimeHours
      deployment_time_hours := mergeToDeployHours
      total_lead_time_hours := totalLeadTimeHours
      commit_to_merge_hours := commitToMergeHours
      merge_to_deploy_hours := mergeToDeployHours
      first_commit_at := firstCommitTime
      merged_at := mergedTime
      deployed_at := deployedTime }

/-- calculatePRLeadTime: null when first_commit_at or merged_at is
absent, otherwise the assembled metric. -/
def calculatePRLeadTime (db : List Deployment) (repositoryId : String)
    (pr : PullRequest) : Option LeadTimeMetric :=
  match pr.first_commit_at, pr.merged_at with
  | some firstCommitTime, some mergedTime =>
    some (calculatePRLeadTimeAt db repositoryId pr firstCommitTime mergedTime)
  | _, _ => none

/-- calculateLeadTime: iterate over the merged PRs of the repository;
each PR whose metric is non-null is persisted (insertLeadTimeMetric) and
collected; null metrics are skipped.  The returned list is exactly the
list of persisted rows. -/
def calculateLeadTime (db : List Deployment) (repositoryId : String)
    (prs : List PullRequest) : List LeadTimeMetric :=
  prs.filterMap (calculatePRLeadTime db repositoryId)

/-- The object returned by categorizeLeadTime. -/
structure Categorization where
  category : String
  color : String
  description : String
deriving Repr, DecidableEq

/-- categorizeLeadTime: hours are converted to days and compared against
1 / 7 / 30 days with inclusive upper bounds. -/
def categorizeLeadTime (hours : ℚ) : Categorization :=
  let days := hours / 24
  if days ≤ 1 then ⟨"Elite", "green", "Less than 1 day"⟩
  else if days ≤ 7 then ⟨"High", "blue", "1-7 days"⟩
  else if days ≤ 30 then ⟨"Medium", "yellow", "1-4 weeks"⟩
  else ⟨"Low", "red", "More than 1 month"⟩

/-- One row of DatabaseManager.getLeadTimePercentiles for a single
repository partition: the lead-time value and its percentile rank
ROW_NUMBER() * 100.0 / COUNT(*), rows ordered by total_lead_time_hours
ascending. -/
structure PercentileRow where
  total_lead_time_hours : ℚ
  percentile : ℚ
deriving Repr, DecidableEq

/-- Assign the rank column to an already sorted list of values: the row
at 1-indexed position i carries percentile i * 100 / n. -/
def assignRanks (n : Nat) : Nat → List ℚ → List PercentileRow
  | _, [] => []
  | i, v :: vs => ⟨v, ((i : ℚ) * 100) / (n : ℚ)⟩ :: assignRanks n (i + 1) vs

/-- DatabaseManager.getLeadTimePercentiles restricted to one repository
partition: ORDER BY total_lead_time_hours with the window-function rank
column. -/
def percentileRowsOf (xs : List ℚ) : List PercentileRow :=
  assignRanks xs.length 1 (List.insertionSort (fun a b => a ≤ b) xs)

/-- findPercentile inside LeadTimeCalculator.getLeadTimePercentiles: the
first row whose percentile is at or above the target, its value. -/
def findPercentile (rows : List PercentileRow) (target : ℚ) : Option ℚ :=
  (rows.find? (fun r => decide (target ≤ r.percentile))).map
    (fun r => r.total_lead_time_hours)

/-- The percentile summary returned by
LeadTimeCalculator.getLeadTimePercentiles. -/
structure Percentiles where
  p50 : Option ℚ
  p75 : Option ℚ
  p90 : Option ℚ
  p95 : Option ℚ
deriving Repr, DecidableEq

/-- LeadTimeCalculator.getLeadTimePercentiles over the values of one
repository: all-null on empty data, else the four nearest-rank-above
percentiles. -/
def getLeadTimePercentiles (xs : List ℚ) : Percentiles :=
  let rows := percentileRowsOf xs
  if rows.length = 0 then ⟨none, none, none, none⟩
  else
    { p50 := findPercentile rows 50
      p75 := findPercentile rows 75
      p90 := findPercentile rows 90
      p95 := findPercentile rows 95 }

/-- SQLite ROUND(x, 2): x scaled by 100, rounded to the nearest integer,
scaled back. -/
def round2 (q : ℚ) : ℚ := (round (q * 100) : ℚ) / 100

/-- One row of DatabaseManager.getLeadTimeStats (GROUP BY repository_id). -/
structure StatsRow where
  repository_id : String
  pr_count : Nat
  avg_lead_time_hours : ℚ
  avg_lead_time_days : ℚ
  min_lead_time_hours : ℚ
  max_lead_time_hours : ℚ
  avg_commit_to_merge_hours : ℚ
  avg_merge_to_deploy_hours : ℚ
  under_24h_count : Nat
  under_1week_count : Nat
deriving Repr, DecidableEq

/-- Aggregate one non-empty repository group into its stats row. -/
def mkStatsRow (repoId : String) : List LeadTimeMetric → Option StatsRow
  | [] => none
  | g =>
    let n : ℚ := (g.length : ℚ)
    let totals := g.map (fun m => m.total_lead_time_hours)
    let avg := (totals.sum) / n
    some
      { repository_id := repoId
        pr_count := g.length
        avg_lead_time_hours := round2 avg
        avg_lead_time_days := round2 (avg / 24)
        min_lead_time_hours := totals.foldr min (totals.headI)
        max_lead_time_hours := totals.foldr max (totals.headI)
        avg_commit_to_merge_hours := round2 ((g.map (fun m => m.commit_to_merge_hours)).sum / n)
        avg_merge_to_deploy_hours := round2 ((g.map (fun m => m.merge_to_deploy_hours)).sum / n)
        under_24h_count := (g.filter (fun m => decide (m.total_lead_time_hours ≤ 24))).length
        under_1week_count := (g.filter (fun m => decide (m.total_lead_time_hours ≤ 168))).length }

/-- WHERE clause of getLeadTimeStats: first_commit_at inside the window,
and the optional repository filter. -/
def statsRowFilter (repositoryId : Option String) (cutoff : Int)
    (m : LeadTimeMetric) : Bool :=
  decide (cutoff ≤ m.first_commit_at) &&
    match repositoryId with
    | some r => m.repository_id == r
    | none => true

/-- DatabaseManager.getLeadTimeStats: filter metrics to the window (and
repository when given), GROUP BY repository_id, aggregate each group,
ORDER BY avg_lead_time_hours ASC. -/
def getLeadTimeStats (metrics : List LeadTimeMetric) (repositoryId : Option String)
    (cutoff : Int) : List StatsRow :=
  let filtered := metrics.filter (statsRowFilter repositoryId cutoff)
  let repos := (filtered.map (fun m => m.repository_id)).dedup
  let rows := repos.filterMap
    (fun r => mkStatsRow r (filtered.filter (fun m => m.repository_id == r)))
  List.insertionSort (fun a b => a.avg_lead_time_hours ≤ b.avg_lead_time_hours) rows

/-- The result of generateInsights: either the distinct no-data object,
or a categorised insights object. -/
inductive Insights where
  | noData (message : String) (recommendations : List String)
  | insights (category : String) (avgLeadTimeDays : ℚ) (percentiles : Percentiles)
      (recommendations : List String)
deriving Repr, DecidableEq

/-- The fixed recommendation list generateInsights pushes for a category. -/
def recommendationsFor (category : String) : List String :=
  if category == "Low" then
    ["Consider implementing feature flags to reduce batch sizes",
     "Review deployment pipeline for automation opportunities",
     "Implement more frequent deployments to reduce lead time"]
  else if category == "Medium" then
    ["Focus on reducing review time through better PR practices",
     "Automate more of the deployment process",
     "Consider trunk-based development"]
  else
    ["Great lead time performance! Consider sharing practices with other teams",
     "Monitor for any increases in lead time as the team scales"]

/-- LeadTimeCalculator.generateInsights for one repository: stats come
from getLeadTimeStats, percentiles from the windowed lead-time values of
the repository; empty stats yield the fixed no-data result, else the
first stats row is classified. -/
def generateInsights (metrics : List LeadTimeMetric) (repositoryId : String)
    (cutoff : Int) : Insights :=
  let stats := getLeadTimeStats metrics (some repositoryId) cutoff
  let percentiles := getLeadTimePercentiles
    ((metrics.filter (statsRowFilter (some repositoryId) cutoff)).map
      (fun m => m.total_lead_time_hours))
  match stats with
  | [] => .noData "No lead time data available"
      ["Set up deployment tracking", "Ensure PRs are properly linked to deployments"]
  | repoStats :: _ =>
    let category := categorizeLeadTime repoStats.avg_lead_time_hours
    .insights category.category repoStats.avg_lead_time_days percentiles
      (recommendationsFor category.category)

/-! ### Helper lemmas about the matcher -/

theorem minDep_mem (l : List Deployment) : ∀ a, minDep a l = a ∨ minDep a l ∈ l := by
  induction l with
  | nil => intro a; exact Or.inl rfl
  | cons b bs ih =>
    intro a
    simp only [minDep]
    rcases ih (if b.deployment_date < a.deployment_date then b else a) with h | h
    · rw [h]
      by_cases hba : b.deployment_date < a.deployment_date
      · rw [if_pos hba]; exact Or.inr (List.mem_cons_self b bs)
      · rw [if_neg hba]; exact Or.inl rfl
    · exact Or.inr (List.mem_cons_of_mem b h)

theorem minDep_le (l : List Deployment) :
    ∀ a, (minDep a l).deployment_date ≤ a.deployment_date ∧
      ∀ b ∈ l, (minDep a l).deployment_date ≤ b.deployment_date := by
  induction l with
  | nil => intro a; exact ⟨le_refl _, by simp⟩
  | cons b bs ih =>
    intro a
    obtain ⟨h1, h2⟩ := ih (if b.deployment_date < a.deployment_date then b else a)
    simp only [minDep]
    constructor
    · refine le_trans h1 ?_
      by_cases hba : b.deployment_date < a.deployment_date
      · rw [if_pos hba]; exact le_of_lt hba
      · rw [if_neg hba]
    · intro c hc
      rcases List.mem_cons.mp hc with rfl | hc
      · refine le_trans h1 ?_
        by_cases hba : c.deployment_date < a.deployment_date
        · rw [if_pos hba]
        · rw [if_neg hba]; exact le_of_not_lt hba
      · exact h2 c hc

theorem firstByDate_eq_none (l : List Deployment) : firstByDate l = none ↔ l = [] := by
  cases l <;> simp [firstByDate]

theorem firstByDate_mem (l : List Deployment) (d : Deployment)
    (h : firstByDate l = some d) : d ∈ l := by
  cases l with
  | nil => cases h
  | cons a as =>
    simp only [firstByDate, Option.some.injEq] at h
    rcases minDep_mem as a with h2 | h2
    · rw [← h, h2]; exact List.mem_cons_self a as
    · rw [← h]; exact List.mem_cons_of_mem a h2

theorem firstByDate_min (l : List Deployment) (d : Deployment)
    (h : firstByDate l = some d) :
    ∀ e ∈ l, d.deployment_date ≤ e.deployment_date := by
  cases l with
  | nil => cases h
  | cons a as =>
    simp only [firstByDate, Option.some.injEq] at h
    intro e he
    rcases List.mem_cons.mp he with rfl | he
    · rw [← h]; exact (minDep_le as e).1
    · rw [← h]; exact (minDep_le as a).2 e he

theorem exactMatchRow_iff (r : String) (m : Int) (hs ms : String) (d : Deployment) :
    exactMatchRow r m hs ms d = true ↔
      (d.repository_id = r ∧ m ≤ d.deployment_date ∧
        (d.commit_sha = hs ∨ d.commit_sha = ms)) := by
  simp [exactMatchRow, and_assoc]

theorem afterMergeRow_iff (r : String) (m : Int) (d : Deployment) :
    afterMergeRow r m d = true ↔ (d.repository_id = r ∧ m ≤ d.deployment_date) := by
  simp [afterMergeRow]

theorem findDeploymentForPR_eq (db : List Deployment) (r : String)
    (pr : PullRequest) (m : Int) (hm : pr.merged_at = some m) :
    findDeploymentForPR db r pr = findDeploymentAt db r m pr.head_sha pr.merge_sha := by
  unfold findDeploymentForPR
  rw [hm]

theorem calculatePRLeadTime_eq (db : List Deployment) (r : String)
    (pr : PullRequest) (fc m : Int) (hfc : pr.first_commit_at = some fc)
    (hm : pr.merged_at = some m) :
    calculatePRLeadTime db r pr = some (calculatePRLeadTimeAt db r pr fc m) := by
  unfold calculatePRLeadTime
  rw [hfc, hm]

theorem findDeploymentAt_basic (db : List Deployment) (r : String)
    (m : Int) (hs ms : String) (d : Deployment)
    (h : findDeploymentAt db r m hs ms = some d) :
    d ∈ db ∧ d.repository_id = r ∧ m ≤ d.deployment_date := by
  unfold findDeploymentAt at h
  cases hfb : firstByDate (db.filter (exactMatchRow r m hs ms)) with
  | some row =>
    rw [hfb] at h
    simp only [Option.some.injEq] at h
    subst h
    have hmem := firstByDate_mem _ _ hfb
    have hf := List.mem_filter.mp hmem
    obtain ⟨h1, h2, _⟩ := (exactMatchRow_iff r m _ _ _).mp hf.2
    exact ⟨hf.1, h1, h2⟩
  | none =>
    rw [hfb] at h
    have hmem := firstByDate_mem _ _ h
    have hf := List.mem_filter.mp hmem
    obtain ⟨h1, h2⟩ := (afterMergeRow_iff r m _).mp hf.2
    exact ⟨hf.1, h1, h2⟩

/-! ### Claim C5 -/

/-- Claim C5: categorizeLeadTime maps an average-hours value to exactly
one of four ordered categories with inclusive upper bounds — hours ≤ 24
is Elite, 24 < hours ≤ 168 is High, 168 < hours ≤ 720 is Medium,
hours > 720 is Low; in particular 24 maps to Elite, 24.0001 to High,
168 to High, 168.0001 to Medium, 720 to Medium and 720.0001 to Low. -/
theorem claim_C5_categorize_boundaries :
    (∀ h : ℚ, h ≤ 24 → (categorizeLeadTime h).category = "Elite") ∧
    (∀ h : ℚ, 24 < h → h ≤ 168 → (categorizeLeadTime h).category = "High") ∧
    (∀ h : ℚ, 168 < h → h ≤ 720 → (categorizeLeadTime h).category = "Medium") ∧
    (∀ h : ℚ, 720 < h → (categorizeLeadTime h).category = "Low") ∧
    (categorizeLeadTime 24).category = "Elite" ∧
    (categorizeLeadTime (240001 / 10000)).category = "High" ∧
    (categorizeLeadTime 168).category = "High" ∧
    (categorizeLeadTime (1680001 / 10000)).category = "Medium" ∧
    (categorizeLeadTime 720).category = "Medium" ∧
    (categorizeLeadTime (7200001 / 10000)).category = "Low" := by
  refine ⟨?_, ?_, ?_, ?_, ?_, ?_, ?_, ?_, ?_, ?_⟩
  · intro h hle
    simp only [categorizeLeadTime]
    rw [if_pos (show h / 24 ≤ 1 by linarith)]
  · intro h h1 h2
    simp only [categorizeLeadTime]
    rw [if_neg (not_le.mpr (show (1:ℚ) < h / 24 by linarith)),
      if_pos (show h / 24 ≤ 7 by linarith)]
  · intro h h1 h2
    simp only [categorizeLeadTime]
    rw [if_neg (not_le.mpr (show (1:ℚ) < h / 24 by linarith)),
      if_neg (not_le.mpr (show (7:ℚ) < h / 24 by linarith)),
      if_pos (show h / 24 ≤ 30 by linarith)]
  · intro h h1
    simp only [categorizeLeadTime]
    rw [if_neg (not_le.mpr (show (1:ℚ) < h / 24 by linarith)),
      if_neg (not_le.mpr (show (7:ℚ) < h / 24 by linarith)),
      if_neg (not_le.mpr (show (30:ℚ) < h / 24 by linarith))]
  all_goals norm_num [categorizeLeadTime]

/-- Witness for C5: 100 hours is classified High. -/
theorem claim_C5_witness : (categorizeLeadTime 100).category = "High" :=
  claim_C5_categorize_boundaries.2.1 100 (by norm_num) (by norm_num)

/-! ### Claim C10 -/

/-- Claim C10: in every metric produced by calculatePRLeadTime, the
deployment_time_hours field equals the merge_to_deploy_hours field,
whether a deployment was matched or the merge-as-deployment fallback
applied. -/
theorem claim_C10_deploymentTime_eq_mergeToDeploy (db : List Deployment)
    (r : String) (pr : PullRequest) (met : LeadTimeMetric)
    (h : calculatePRLeadTime db r pr = some met) :
    met.deployment_time_hours = met.merge_to_deploy_hours := by
  cases hfc : pr.first_commit_at with
  | none => simp [calculatePRLeadTime, hfc] at h
  | some fc =>
    cases hm : pr.merged_at with
    | none => simp [calculatePRLeadTime, hfc, hm] at h
    | some m =>
      rw [calculatePRLeadTime_eq db r pr fc m hfc hm] at h
      simp only [Option.some.injEq] at h
      subst h
      rfl

/-- Concrete PR for the C10 witness: first commit at 0 ms, opened at
3600000 ms, merged at 7200000 ms. -/
def prC10 : PullRequest :=
  { id := 1, created_at_pr := 3600000, first_commit_at := some 0,
    merged_at := some 7200000, head_sha := "h", merge_sha := "m" }

/-- The metric calculatePRLeadTime produces for prC10 on an empty
deployment table. -/
def metC10 : LeadTimeMetric :=
  { repository_id := "r", pr_id := 1, deployment_id := none,
    coding_time_hours := 1, review_time_hours := 1,
    deployment_time_hours := 0, total_lead_time_hours := 2,
    commit_to_merge_hours := 2, merge_to_deploy_hours := 0,
    first_commit_at := 0, merged_at := 7200000, deployed_at := 7200000 }

theorem calculatePRLeadTime_prC10 :
    calculatePRLeadTime [] "r" prC10 = some metC10 := by
  rw [calculatePRLeadTime_eq [] "r" prC10 0 7200000 rfl rfl]
  norm_num [calculatePRLeadTimeAt, findDeploymentForPR, findDeploymentAt,
    firstByDate, calculateHoursDifference, mathMax, prC10, metC10]

/-- Witness for C10 at a concrete PR. -/
theorem claim_C10_witness :
    calculatePRLeadTime [] "r" prC10 = some metC10 ∧
    metC10.deployment_time_hours = metC10.merge_to_deploy_hours :=
  ⟨calculatePRLeadTime_prC10,
    claim_C10_deploymentTime_eq_mergeToDeploy [] "r" prC10 metC10
      calculatePRLeadTime_prC10⟩

/-! ### Claim C3 -/

/-- Claim C3: when the matcher finds no deployment and both timestamps
are present, the metric has deployed_at equal to merged_at,
merge_to_deploy_hours 0 and totalLeadTimeHours equal to
commitToMergeHours = hoursBetween(firstCommitAt, mergedAt); the
computation does not fail. -/
theorem claim_C3_merge_as_deployment_fallback (db : List Deployment) (r : String)
    (pr : PullRequest) (fc m : Int) (hfc : pr.first_commit_at = some fc)
    (hm : pr.merged_at = some m) (hnd : findDeploymentForPR db r pr = none) :
    ∃ met, calculatePRLeadTime db r pr = some met ∧
      met.deployed_at = m ∧ met.merge_to_deploy_hours = 0 ∧
      met.total_lead_time_hours = met.commit_to_merge_hours ∧
      met.commit_to_merge_hours = calculateHoursDifference fc m := by
  refine ⟨calculatePRLeadTimeAt db r pr fc m,
    calculatePRLeadTime_eq db r pr fc m hfc hm, ?_, ?_, ?_, ?_⟩
  all_goals simp [calculatePRLeadTimeAt, hnd]

/-- Concrete PR for the C3 witness. -/
def prC3 : PullRequest :=
  { id := 2, created_at_pr := 3600000, first_commit_at := some 0,
    merged_at := some 7200000, head_sha := "h3", merge_sha := "m3" }

/-- Witness for C3: empty deployment table, so the matcher finds
nothing. -/
theorem claim_C3_witness :
    prC3.first_commit_at = some 0 ∧ prC3.merged_at = some 7200000 ∧
    findDeploymentForPR [] "r" prC3 = none ∧
    (∃ met, calculatePRLeadTime [] "r" prC3 = some met ∧
      met.deployed_at = 7200000 ∧ met.merge_to_deploy_hours = 0 ∧
      met.total_lead_time_hours = met.commit_to_merge_hours ∧
      met.commit_to_merge_hours = calculateHoursDifference 0 7200000) :=
  ⟨rfl, rfl, rfl,
    claim_C3_merge_as_deployment_fallback [] "r" prC3 0 7200000 rfl rfl rfl⟩

/-! ### Claim C7 -/

theorem calculatePRLeadTime_isSome (db : List Deployment) (r : String)
    (pr : PullRequest) :
    (calculatePRLeadTime db r pr).isSome =
      (pr.first_commit_at.isSome && pr.merged_at.isSome) := by
  cases hfc : pr.first_commit_at <;> cases hm : pr.merged_at <;>
    simp [calculatePRLeadTime, hfc, hm]

/-- Claim C7: calculatePRLeadTime returns none exactly when
first_commit_at or merged_at is absent, and the calculateLeadTime loop
persists exactly one row per change that has both timestamps — none for
a change missing one of them. -/
theorem claim_C7_skip_missing_timestamps (db : List Deployment) (r : String)
    (pr : PullRequest) (prs : List PullRequest) :
    (calculatePRLeadTime db r pr = none ↔
      pr.first_commit_at = none ∨ pr.merged_at = none) ∧
    (calculateLeadTime db r prs).length =
      (prs.filter (fun q => q.first_commit_at.isSome && q.merged_at.isSome)).length := by
  constructor
  · cases hfc : pr.first_commit_at <;> cases hm : pr.merged_at <;>
      simp [calculatePRLeadTime, hfc, hm]
  · induction prs with
    | nil => rfl
    | cons q qs ih =>
      cases hfq : calculatePRLeadTime db r q with
      | none =>
        have hp : (q.first_commit_at.isSome && q.merged_at.isSome) = false := by
          rw [← calculatePRLeadTime_isSome db r q, hfq]
          rfl
        simp only [calculateLeadTime, List.filterMap_cons, hfq, List.filter_cons, hp,
          Bool.false_eq_true, if_false] at ih ⊢
        exact ih
      | some met =>
        have hp : (q.first_commit_at.isSome && q.merged_at.isSome) = true := by
          rw [← calculatePRLeadTime_isSome db r q, hfq]
          rfl
        simp only [calculateLeadTime, List.filterMap_cons, hfq, List.filter_cons, hp,
          if_true, List.length_cons] at ih ⊢
        exact congrArg (fun n => n + 1) ih

/-- A change missing first_commit_at, for the C7 witness. -/
def prC7 : PullRequest :=
  { id := 5, created_at_pr := 3600000, first_commit_at := none,
    merged_at := some 7200000, head_sha := "h7", merge_sha := "m7" }

/-- Witness for C7: a change missing first_commit_at yields none and no
persisted row. -/
theorem claim_C7_witness :
    (calculatePRLeadTime [] "r" prC7 = none ↔
      prC7.first_commit_at = none ∨ prC7.merged_at = none) ∧
    (calculateLeadTime [] "r" [prC7]).length =
      ([prC7].filter (fun q => q.first_commit_at.isSome && q.merged_at.isSome)).length :=
  claim_C7_skip_missing_timestamps [] "r" prC7 [prC7]

/-! ### Claim C1 -/

theorem chd_nonneg {a b : Int} (h : a ≤ b) :
    (0:ℚ) ≤ calculateHoursDifference a b := by
  unfold calculateHoursDifference
  apply div_nonneg _ (by norm_num)
  simp only [sub_nonneg]
  exact_mod_cast h

/-- Claim C1: for a change whose timestamps are ordered
firstCommitAt ≤ createdAt ≤ mergedAt ≤ deployedAt (deployedAt being the
matched deployment time, or mergedAt when none matched), the produced
metric satisfies codingTimeHours + reviewTimeHours + mergeToDeployHours
= totalLeadTimeHours within 1e-6 hours. -/
theorem claim_C1_phase_sum (db : List Deployment) (r : String) (pr : PullRequest)
    (fc m : Int) (met : LeadTimeMetric)
    (hfc : pr.first_commit_at = some fc) (hm : pr.merged_at = some m)
    (hcalc : calculatePRLeadTime db r pr = some met)
    (h1 : fc ≤ pr.created_at_pr) (h2 : pr.created_at_pr ≤ m)
    (h3 : m ≤ met.deployed_at) :
    |met.coding_time_hours + met.review_time_hours + met.merge_to_deploy_hours -
      met.total_lead_time_hours| ≤ 1 / 1000000 := by
  rw [calculatePRLeadTime_eq db r pr fc m hfc hm] at hcalc
  simp only [Option.some.injEq] at hcalc
  subst hcalc
  have hc0 := chd_nonneg (a := fc) (b := pr.created_at_pr) h1
  have hr0 := chd_nonneg (a := pr.created_at_pr) (b := m) h2
  cases hdep : findDeploymentForPR db r pr with
  | none =>
    simp only [calculatePRLeadTimeAt, hdep]
    rw [mathMax_eq_right hc0, mathMax_eq_right hr0]
    have hz : calculateHoursDifference fc pr.created_at_pr +
        calculateHoursDifference pr.created_at_pr m + 0 -
        calculateHoursDifference fc m = 0 := by
      unfold calculateHoursDifference
      ring
    rw [hz, abs_zero]
    norm_num
  | some d =>
    simp only [calculatePRLeadTimeAt, hdep]
    rw [mathMax_eq_right hc0, mathMax_eq_right hr0]
    have hz : calculateHoursDifference fc pr.created_at_pr +
        calculateHoursDifference pr.created_at_pr m +
        calculateHoursDifference m d.deployment_date -
        calculateHoursDifference fc d.deployment_date = 0 := by
      unfold calculateHoursDifference
      ring
    rw [hz, abs_zero]
    norm_num

/-- Concrete change for the C1 witness: commit at 0, opened at 1 h,
merged at 2 h. -/
def prC1 : PullRequest :=
  { id := 3, created_at_pr := 3600000, first_commit_at := some 0,
    merged_at := some 7200000, head_sha := "hs", merge_sha := "ms" }

/-- Deployment of the head commit of prC1 at 3 h. -/
def depC1 : Deployment :=
  { id := 7, repository_id := "r", deployment_date := 10800000, commit_sha := "hs" }

/-- The metric calculatePRLeadTime produces for prC1 against [depC1]. -/
def metC1 : LeadTimeMetric :=
  { repository_id := "r", pr_id := 3, deployment_id := some 7,
    coding_time_hours := 1, review_time_hours := 1,
    deployment_time_hours := 1, total_lead_time_hours := 3,
    commit_to_merge_hours := 2, merge_to_deploy_hours := 1,
    first_commit_at := 0, merged_at := 7200000, deployed_at := 10800000 }

theorem calculatePRLeadTime_prC1 :
    calculatePRLeadTime [depC1] "r" prC1 = some metC1 := by
  rw [calculatePRLeadTime_eq [depC1] "r" prC1 0 7200000 rfl rfl]
  norm_num [calculatePRLeadTimeAt, findDeploymentForPR, findDeploymentAt,
    firstByDate, minDep, exactMatchRow, afterMergeRow, List.filter,
    calculateHoursDifference, mathMax, prC1, depC1, metC1]

/-- Witness for C1 at a concrete matched change. -/
theorem claim_C1_witness :
    prC1.first_commit_at = some 0 ∧ prC1.merged_at = some 7200000 ∧
    calculatePRLeadTime [depC1] "r" prC1 = some metC1 ∧
    ((0:Int) ≤ prC1.created_at_pr ∧ prC1.created_at_pr ≤ 7200000 ∧
      (7200000:Int) ≤ metC1.deployed_at) ∧
    |metC1.coding_time_hours + metC1.review_time_hours +
      metC1.merge_to_deploy_hours - metC1.total_lead_time_hours| ≤ 1 / 1000000 :=
  ⟨rfl, rfl, calculatePRLeadTime_prC1, ⟨by decide, by decide, by decide⟩,
    claim_C1_phase_sum [depC1] "r" prC1 0 7200000 metC1 rfl rfl
      calculatePRLeadTime_prC1 (by decide) (by decide) (by decide)⟩

/-! ### Claim C4 -/

/-- A change with out-of-order timestamps (first commit after the
merge) for the C4 counterexample. -/
def prC4 : PullRequest :=
  { id := 4, created_at_pr := 0, first_commit_at := some 3600000,
    merged_at := some 0, head_sha := "h4", merge_sha := "m4" }

/-- The metric calculatePRLeadTime produces for prC4 on an empty
deployment table: negative commit-to-merge and total lead time. -/
def metC4 : LeadTimeMetric :=
  { repository_id := "r", pr_id := 4, deployment_id := none,
    coding_time_hours := 0, review_time_hours := 0,
    deployment_time_hours := 0, total_lead_time_hours := -1,
    commit_to_merge_hours := -1, merge_to_deploy_hours := 0,
    first_commit_at := 3600000, merged_at := 0, deployed_at := 0 }

/-- Counterexample to claim C4 as stated: a change with out-of-order
timestamps produces a metric whose commit_to_merge_hours and
total_lead_time_hours are negative, so not every duration field is
clamped to ≥ 0. -/
theorem claim_C4_counterexample :
    calculatePRLeadTime [] "r" prC4 = some metC4 ∧
    metC4.commit_to_merge_hours < 0 ∧ metC4.total_lead_time_hours < 0 := by
  refine ⟨?_, by norm_num [metC4], by norm_num [metC4]⟩
  rw [calculatePRLeadTime_eq [] "r" prC4 3600000 0 rfl rfl]
  norm_num [calculatePRLeadTimeAt, findDeploymentForPR, findDeploymentAt,
    firstByDate, calculateHoursDifference, mathMax, prC4, metC4]

/-- Claim C4 amended: coding_time_hours and review_time_hours are
clamped to ≥ 0 by Math.max, and deployment_time_hours and
merge_to_deploy_hours are ≥ 0 because a matched deployment is at or
after the merge and the fallback sets them to 0; commit_to_merge_hours
and total_lead_time_hours are not clamped and may be negative for
out-of-order timestamps. -/
theorem claim_C4_clamped_fields (db : List Deployment) (r : String)
    (pr : PullRequest) (met : LeadTimeMetric)
    (h : calculatePRLeadTime db r pr = some met) :
    0 ≤ met.coding_time_hours ∧ 0 ≤ met.review_time_hours ∧
    0 ≤ met.deployment_time_hours ∧ 0 ≤ met.merge_to_deploy_hours := by
  cases hfc : pr.first_commit_at with
  | none => simp [calculatePRLeadTime, hfc] at h
  | some fc =>
    cases hm : pr.merged_at with
    | none => simp [calculatePRLeadTime, hfc, hm] at h
    | some m =>
      rw [calculatePRLeadTime_eq db r pr fc m hfc hm] at h
      simp only [Option.some.injEq] at h
      subst h
      cases hdep : findDeploymentForPR db r pr with
      | none =>
        simp only [calculatePRLeadTimeAt, hdep]
        exact ⟨le_mathMax_left 0 _, le_mathMax_left 0 _, le_refl 0, le_refl 0⟩
      | some d =>
        have hd := findDeploymentAt_basic db r m pr.head_sha pr.merge_sha d
          (by rw [← findDeploymentForPR_eq db r pr m hm]; exact hdep)
        have hmd := chd_nonneg hd.2.2
        simp only [calculatePRLeadTimeAt, hdep]
        exact ⟨le_mathMax_left 0 _, le_mathMax_left 0 _, hmd, hmd⟩

/-- Witness for the amended C4 at a concrete change. -/
theorem claim_C4_witness :
    calculatePRLeadTime [] "r" prC10 = some metC10 ∧
    (0 ≤ metC10.coding_time_hours ∧ 0 ≤ metC10.review_time_hours ∧
      0 ≤ metC10.deployment_time_hours ∧ 0 ≤ metC10.merge_to_deploy_hours) :=
  ⟨calculatePRLeadTime_prC10,
    claim_C4_clamped_fields [] "r" prC10 metC10 calculatePRLeadTime_prC10⟩

/-! ### Claim C2 -/

/-- Claim C2: with mergedAt present, the matcher returns the earliest
deployment of the repository at or after the merge whose commit_sha is
the head or merge commit of the change; only when no such exact-commit
row exists does it return the earliest deployment at or after the merge
regardless of commit; it returns none exactly when no deployment of the
repository at or after the merge exists.  In particular an exact-commit
match is preferred even over an earlier non-matching deployment. -/
theorem claim_C2_matcher_prefers_exact (db : List Deployment) (r : String)
    (pr : PullRequest) (m : Int) (hm : pr.merged_at = some m) :
    (findDeploymentForPR db r pr = none ↔
      ∀ e ∈ db, ¬ (e.repository_id = r ∧ m ≤ e.deployment_date)) ∧
    (∀ d, findDeploymentForPR db r pr = some d →
      d ∈ db ∧ d.repository_id = r ∧ m ≤ d.deployment_date ∧
      (((d.commit_sha = pr.head_sha ∨ d.commit_sha = pr.merge_sha) ∧
          ∀ e ∈ db, e.repository_id = r → m ≤ e.deployment_date →
            (e.commit_sha = pr.head_sha ∨ e.commit_sha = pr.merge_sha) →
            d.deployment_date ≤ e.deployment_date) ∨
        ((∀ e ∈ db, e.repository_id = r → m ≤ e.deployment_date →
            ¬ (e.commit_sha = pr.head_sha ∨ e.commit_sha = pr.merge_sha)) ∧
          ∀ e ∈ db, e.repository_id = r → m ≤ e.deployment_date →
            d.deployment_date ≤ e.deployment_date))) := by
  cases hfe : firstByDate (db.filter (exactMatchRow r m pr.head_sha pr.merge_sha)) with
  | some row =>
    have hres : findDeploymentForPR db r pr = some row := by
      rw [findDeploymentForPR_eq db r pr m hm]
      simp only [findDeploymentAt, hfe]
    have hrowf := List.mem_filter.mp (firstByDate_mem _ _ hfe)
    obtain ⟨hr1, hr2, hr3⟩ := (exactMatchRow_iff r m _ _ _).mp hrowf.2
    constructor
    · rw [hres]
      constructor
      · intro h
        cases h
      · intro hall
        exact ((hall row hrowf.1) ⟨hr1, hr2⟩).elim
    · intro d hd
      rw [hres, Option.some.injEq] at hd
      subst hd
      refine ⟨hrowf.1, hr1, hr2, Or.inl ⟨hr3, ?_⟩⟩
      intro e he he1 he2 he3
      exact firstByDate_min _ _ hfe e
        (List.mem_filter.mpr ⟨he, (exactMatchRow_iff r m _ _ _).mpr ⟨he1, he2, he3⟩⟩)
  | none =>
    have hex : db.filter (exactMatchRow r m pr.head_sha pr.merge_sha) = [] :=
      (firstByDate_eq_none _).mp hfe
    have hnoexact : ∀ e ∈ db, e.repository_id = r → m ≤ e.deployment_date →
        ¬ (e.commit_sha = pr.head_sha ∨ e.commit_sha = pr.merge_sha) := by
      intro e he he1 he2 he3
      have := List.filter_eq_nil_iff.mp hex e he
      exact this ((exactMatchRow_iff r m _ _ _).mpr ⟨he1, he2, he3⟩)
    cases hfa : firstByDate (db.filter (afterMergeRow r m)) with
    | none =>
      have hres : findDeploymentForPR db r pr = none := by
        rw [findDeploymentForPR_eq db r pr m hm]
        simp only [findDeploymentAt, hfe, hfa]
      have haft : db.filter (afterMergeRow r m) = [] :=
        (firstByDate_eq_none _).mp hfa
      constructor
      · rw [hres]
        simp only [true_iff]
        intro e he hcon
        have := List.filter_eq_nil_iff.mp haft e he
        exact this ((afterMergeRow_iff r m _).mpr hcon)
      · intro d hd
        rw [hres] at hd
        cases hd
    | some d2 =>
      have hres : findDeploymentForPR db r pr = some d2 := by
        rw [findDeploymentForPR_eq db r pr m hm]
        simp only [findDeploymentAt, hfe, hfa]
      have hd2f := List.mem_filter.mp (firstByDate_mem _ _ hfa)
      obtain ⟨hd1, hd2⟩ := (afterMergeRow_iff r m _).mp hd2f.2
      constructor
      · rw [hres]
        constructor
        · intro h
          cases h
        · intro hall
          exact ((hall d2 hd2f.1) ⟨hd1, hd2⟩).elim
      · intro d hd
        rw [hres, Option.some.injEq] at hd
        subst hd
        refine ⟨hd2f.1, hd1, hd2, Or.inr ⟨hnoexact, ?_⟩⟩
        intro e he he1 he2
        exact firstByDate_min _ _ hfa e
          (List.mem_filter.mpr ⟨he, (afterMergeRow_iff r m _).mpr ⟨he1, he2⟩⟩)

/-- Change for the C2 witness, merged at 2 h, head commit "hs". -/
def prC2 : PullRequest :=
  { id := 6, created_at_pr := 3600000, first_commit_at := some 0,
    merged_at := some 7200000, head_sha := "hs", merge_sha := "ms" }

/-- A non-matching deployment shortly after the merge. -/
def depC2early : Deployment :=
  { id := 8, repository_id := "r", deployment_date := 8000000, commit_sha := "zz" }

/-- The exact-commit deployment, later than depC2early. -/
def depC2exact : Deployment :=
  { id := 9, repository_id := "r", deployment_date := 10800000, commit_sha := "hs" }

/-- Witness for C2: the exact-commit deployment is returned even though
a non-matching deployment occurs earlier in time. -/
theorem claim_C2_witness :
    prC2.merged_at = some 7200000 ∧
    findDeploymentForPR [depC2early, depC2exact] "r" prC2 = some depC2exact ∧
    (∀ d, findDeploymentForPR [depC2early, depC2exact] "r" prC2 = some d →
      d ∈ [depC2early, depC2exact] ∧ d.repository_id = "r" ∧
      (7200000:Int) ≤ d.deployment_date ∧
      (((d.commit_sha = prC2.head_sha ∨ d.commit_sha = prC2.merge_sha) ∧
          ∀ e ∈ [depC2early, depC2exact], e.repository_id = "r" →
            (7200000:Int) ≤ e.deployment_date →
            (e.commit_sha = prC2.head_sha ∨ e.commit_sha = prC2.merge_sha) →
            d.deployment_date ≤ e.deployment_date) ∨
        ((∀ e ∈ [depC2early, depC2exact], e.repository_id = "r" →
            (7200000:Int) ≤ e.deployment_date →
            ¬ (e.commit_sha = prC2.head_sha ∨ e.commit_sha = prC2.merge_sha)) ∧
          ∀ e ∈ [depC2early, depC2exact], e.repository_id = "r" →
            (7200000:Int) ≤ e.deployment_date →
            d.deployment_date ≤ e.deployment_date))) :=
  ⟨rfl, by decide,
    (claim_C2_matcher_prefers_exact [depC2early, depC2exact] "r" prC2 7200000 rfl).2⟩

/-! ### Claim C6 -/

theorem sorted_le_getLast :
    ∀ (l : List ℚ), l.Sorted (fun a b : ℚ => a ≤ b) →
      ∀ (hne : l ≠ []) (x : ℚ), x ∈ l → x ≤ l.getLast hne := by
  intro l
  induction l with
  | nil => intro _ hne; exact (hne rfl).elim
  | cons a as ih =>
    intro hs hne x hx
    cases as with
    | nil =>
      rcases List.mem_singleton.mp hx with rfl
      rw [List.getLast_singleton]
    | cons b bs =>
      rw [List.getLast_cons (List.cons_ne_nil b bs)]
      rcases List.mem_cons.mp hx with rfl | hx2
      · exact List.rel_of_sorted_cons hs _ (List.getLast_mem (List.cons_ne_nil b bs))
      · exact ih hs.of_cons (List.cons_ne_nil b bs) x hx2

theorem assignRanks_find_last (n : Nat) (hn : 0 < n) :
    ∀ (l : List ℚ) (i : Nat) (hne : l ≠ []), i + l.length = n + 1 →
      ((assignRanks n i l).find? (fun row => decide ((100:ℚ) ≤ row.percentile))).map
          (fun row => row.total_lead_time_hours) = some (l.getLast hne) := by
  intro l
  induction l with
  | nil => intro i hne; exact (hne rfl).elim
  | cons v vs ih =>
    intro i hne hlen
    cases vs with
    | nil =>
      have hi : i = n := by
        simp only [List.length_cons, List.length_nil] at hlen
        omega
      subst hi
      have hperc : ((i:ℚ) * 100) / (i:ℚ) = 100 := by
        rw [mul_comm, mul_div_assoc,
          div_self (show (i:ℚ) ≠ 0 by exact_mod_cast hn.ne'), mul_one]
      simp only [assignRanks]
      simp [List.find?, decide_eq_true (le_of_eq hperc.symm), List.getLast_singleton]
    | cons w ws =>
      have hi : i < n := by
        simp only [List.length_cons] at hlen
        omega
      have hlt : ((i:ℚ) * 100) / (n:ℚ) < 100 := by
        rw [div_lt_iff₀ (show (0:ℚ) < n by exact_mod_cast hn)]
        have hiq : (i:ℚ) < (n:ℚ) := by exact_mod_cast hi
        nlinarith
      rw [show assignRanks n i (v :: w :: ws) =
          (⟨v, (i:ℚ) * 100 / (n:ℚ)⟩ : PercentileRow) ::
            assignRanks n (i + 1) (w :: ws) from rfl]
      rw [show List.find? (fun row => decide ((100:ℚ) ≤ row.percentile))
            ((⟨v, (i:ℚ) * 100 / (n:ℚ)⟩ : PercentileRow) ::
              assignRanks n (i + 1) (w :: ws)) =
          List.find? (fun row => decide ((100:ℚ) ≤ row.percentile))
            (assignRanks n (i + 1) (w :: ws)) by
        simp [List.find?, decide_eq_false (not_le.mpr hlt)]]
      rw [List.getLast_cons (List.cons_ne_nil w ws)]
      refine ih (i + 1) (List.cons_ne_nil w ws) ?_
      simp only [List.length_cons] at hlen ⊢
      omega

/-- Claim C6: for a non-empty sequence of lead-time values, ranks are
i * 100 / n over the ascending sort and the percentile lookup returns
the first value whose rank is at or above the target, so at target 100
it returns the maximum of the sequence. -/
theorem claim_C6_percentile_100_is_max (xs : List ℚ) (hne : xs ≠ []) :
    ∃ v, findPercentile (percentileRowsOf xs) 100 = some v ∧ v ∈ xs ∧
      ∀ x ∈ xs, x ≤ v := by
  have hperm : List.Perm (List.insertionSort (fun a b : ℚ => a ≤ b) xs) xs :=
    List.perm_insertionSort _ xs
  have hsne : List.insertionSort (fun a b : ℚ => a ≤ b) xs ≠ [] := by
    intro h
    rw [h] at hperm
    exact hne hperm.symm.eq_nil
  have hlen : (List.insertionSort (fun a b : ℚ => a ≤ b) xs).length = xs.length :=
    hperm.length_eq
  have hn : 0 < xs.length := List.length_pos.mpr hne
  have hkey := assignRanks_find_last xs.length hn
    (List.insertionSort (fun a b : ℚ => a ≤ b) xs) 1 hsne (by rw [hlen]; omega)
  refine ⟨(List.insertionSort (fun a b : ℚ => a ≤ b) xs).getLast hsne, ?_, ?_, ?_⟩
  · unfold findPercentile percentileRowsOf
    exact hkey
  · exact hperm.mem_iff.mp (List.getLast_mem hsne)
  · intro x hx
    exact sorted_le_getLast _ (List.sorted_insertionSort _ xs) hsne x
      (hperm.mem_iff.mpr hx)

/-- Witness for C6 on the sequence [1, 3, 2]. -/
theorem claim_C6_witness :
    ([1, 3, 2] : List ℚ) ≠ [] ∧
    (∃ v, findPercentile (percentileRowsOf [1, 3, 2]) 100 = some v ∧
      v ∈ ([1, 3, 2] : List ℚ) ∧ ∀ x ∈ ([1, 3, 2] : List ℚ), x ≤ v) :=
  ⟨by simp, claim_C6_percentile_100_is_max [1, 3, 2] (by simp)⟩

/-! ### Claim C8 -/

instance : IsTotal StatsRow (fun a b => a.avg_lead_time_hours ≤ b.avg_lead_time_hours) :=
  ⟨fun a b => le_total a.avg_lead_time_hours b.avg_lead_time_hours⟩

instance : IsTrans StatsRow (fun a b => a.avg_lead_time_hours ≤ b.avg_lead_time_hours) :=
  ⟨fun _ _ _ hab hbc => le_trans hab hbc⟩

theorem statsRowFilter_le {repositoryId : Option String} {cutoff : Int}
    {mt : LeadTimeMetric} (h : statsRowFilter repositoryId cutoff mt = true) :
    cutoff ≤ mt.first_commit_at := by
  unfold statsRowFilter at h
  rw [Bool.and_eq_true] at h
  exact of_decide_eq_true h.1

/-- Claim C8: the aggregator's result is sorted ascending by its mean
lead-time column (best performers first), and every row belongs to a
repository with at least one metric whose first_commit_at falls within
the requested window. -/
theorem claim_C8_stats_sorted_and_windowed (metrics : List LeadTimeMetric)
    (repositoryId : Option String) (cutoff : Int) :
    (getLeadTimeStats metrics repositoryId cutoff).Sorted
      (fun a b => a.avg_lead_time_hours ≤ b.avg_lead_time_hours) ∧
    ∀ row ∈ getLeadTimeStats metrics repositoryId cutoff,
      ∃ mt ∈ metrics, mt.repository_id = row.repository_id ∧
        cutoff ≤ mt.first_commit_at := by
  constructor
  · simp only [getLeadTimeStats]
    exact List.sorted_insertionSort _ _
  · intro row hrow
    simp only [getLeadTimeStats] at hrow
    have hrow2 := (List.perm_insertionSort
      (fun a b : StatsRow => a.avg_lead_time_hours ≤ b.avg_lead_time_hours) _).mem_iff.mp hrow
    obtain ⟨rname, hrname, hmk⟩ := List.mem_filterMap.mp hrow2
    cases hg : (metrics.filter (statsRowFilter repositoryId cutoff)).filter
        (fun mt => mt.repository_id == rname) with
    | nil =>
      rw [hg] at hmk
      cases hmk
    | cons m0 rest =>
      rw [hg] at hmk
      simp only [mkStatsRow, Option.some.injEq] at hmk
      have hrid : row.repository_id = rname := by
        rw [← hmk]
      have hm0 : m0 ∈ (metrics.filter (statsRowFilter repositoryId cutoff)).filter
          (fun mt => mt.repository_id == rname) := by
        rw [hg]
        exact List.mem_cons_self m0 rest
      have hm0a := List.mem_filter.mp hm0
      have hm0b := List.mem_filter.mp hm0a.1
      refine ⟨m0, hm0b.1, ?_, statsRowFilter_le hm0b.2⟩
      rw [hrid]
      exact eq_of_beq hm0a.2

/-- Witness for C8 on one concrete metric: the aggregator output is
sorted and windowed. -/
theorem claim_C8_witness :
    (getLeadTimeStats [metC10] none 0).Sorted
      (fun a b => a.avg_lead_time_hours ≤ b.avg_lead_time_hours) ∧
    ∀ row ∈ getLeadTimeStats [metC10] none 0,
      ∃ mt ∈ [metC10], mt.repository_id = row.repository_id ∧
        (0:Int) ≤ mt.first_commit_at :=
  claim_C8_stats_sorted_and_windowed [metC10] none 0

/-! ### Claim C9 -/

/-- Claim C9: a repository with no stored lead-time metric in the window
gets the distinct no-data insights object with the fixed bootstrapping
recommendations and no performance category. -/
theorem claim_C9_no_data_insights (metrics : List LeadTimeMetric) (repoId : String)
    (cutoff : Int)
    (h : ∀ mt ∈ metrics, ¬ (mt.repository_id = repoId ∧ cutoff ≤ mt.first_commit_at)) :
    generateInsights metrics repoId cutoff =
      Insights.noData "No lead time data available"
        ["Set up deployment tracking", "Ensure PRs are properly linked to deployments"] := by
  have hfil : metrics.filter (statsRowFilter (some repoId) cutoff) = [] := by
    rw [List.filter_eq_nil_iff]
    intro mt hmt hsf
    unfold statsRowFilter at hsf
    rw [Bool.and_eq_true] at hsf
    exact h mt hmt ⟨by simpa using hsf.2, of_decide_eq_true hsf.1⟩
  unfold generateInsights getLeadTimeStats
  rw [hfil]
  rfl

/-- Witness for C9: empty metric store. -/
theorem claim_C9_witness :
    (∀ mt ∈ ([] : List LeadTimeMetric),
      ¬ (mt.repository_id = "r" ∧ (0:Int) ≤ mt.first_commit_at)) ∧
    generateInsights [] "r" 0 =
      Insights.noData "No lead time data available"
        ["Set up deployment tracking", "Ensure PRs are properly linked to deployments"] :=
  ⟨by simp, claim_C9_no_data_insights [] "r" 0 (by simp)⟩
